import Mathlib

/-!
Verification of the baton-databricks connector against its specification.

The definitions below are a shallow embedding of the Go sources:
pure fragments of the code become Lean functions, the one piece of client
state (the held etag) becomes explicit state passing, Go slices become
lists, Go machine integers become Nat/Int with explicit reduction
modulo 2^64 where the unsigned arithmetic can wrap, and fallible code
returns Option/Except.
-/

namespace BatonDatabricks

/-- RuleSet from pkg/databricks/models.go: a named authorization rule,
one role together with the principal strings holding it. -/
structure RuleSet where
  principals : List String
  role : String
  deriving DecidableEq, Repr

/-! ## groupBuilder.Grant, rule-set branch (pkg/connector/groups.go, lines 358-392)

The Go code fetches the rule sets, then runs

    found := false
    for i, ruleSet := range ruleSets {
      if ruleSet.Role == role {
        found = true
        if slices.Contains(ruleSet.Principals, principalID) { return nil, nil }
        ruleSets[i].Principals = append(ruleSets[i].Principals, principalID)
      }
    }
    if !found { ruleSets = append(ruleSets, RuleSet{Role: role, Principals: []string{principalID}}) }
    UpdateRuleSets(ruleSets)

`grantScan` is the loop: it returns `none` when the code takes the early
`return nil, nil` (no UpdateRuleSets call), and `some l` with the
mutated list when the loop runs to completion. -/
def grantScan (role pid : String) : List RuleSet → Option (List RuleSet)
  | [] => some []
  | rs :: rest =>
    if rs.role = role then
      if pid ∈ rs.principals then
        none
      else
        (grantScan role pid rest).map
          fun tail => { rs with principals := rs.principals ++ [pid] } :: tail
    else
      (grantScan role pid rest).map fun tail => rs :: tail

/-- The complete rule-set decision of groupBuilder.Grant: `none` means the
function returned a nil error without calling UpdateRuleSets; `some l`
means UpdateRuleSets was called with `l`.  The `found` flag of the Go
loop, observed only after a completed loop, equals whether some fetched
rule set carries the granted role. -/
def grantRuleSets (role pid : String) (ruleSets : List RuleSet) : Option (List RuleSet) :=
  (grantScan role pid ruleSets).map fun scanned =>
    if ruleSets.any fun rs => rs.role == role then
      scanned
    else
      scanned ++ [{ principals := [pid], role := role }]

theorem grantScan_eq_none (role pid : String) :
    ∀ l : List RuleSet, (∃ rs ∈ l, rs.role = role ∧ pid ∈ rs.principals) →
      grantScan role pid l = none := by
  intro l h
  induction l with
  | nil => simp at h
  | cons rs rest ih =>
    rcases h with ⟨w, hw, hrole, hmem⟩
    rcases List.mem_cons.mp hw with hweq | hwrest
    · subst hweq
      simp [grantScan, hrole, hmem]
    · by_cases hr : rs.role = role
      · by_cases hp : pid ∈ rs.principals
        · simp [grantScan, hr, hp]
        · simp [grantScan, hr, hp, ih ⟨w, hwrest, hrole, hmem⟩]
      · simp [grantScan, hr, ih ⟨w, hwrest, hrole, hmem⟩]

theorem grantScan_some_count (role pid : String) :
    ∀ l l2 : List RuleSet, grantScan role pid l = some l2 →
      ∀ b ∈ l2, b.role = role → pid ∈ b.principals ∧ b.principals.count pid = 1 := by
  intro l
  induction l with
  | nil =>
    intro l2 h b hb
    simp [grantScan] at h
    subst h
    simp at hb
  | cons rs rest ih =>
    intro l2 h b hb hbrole
    by_cases hr : rs.role = role
    · by_cases hp : pid ∈ rs.principals
      · simp [grantScan, hr, hp] at h
      · simp only [grantScan, if_pos hr, if_neg hp, Option.map_eq_some'] at h
        rcases h with ⟨tail, htail, rfl⟩
        rcases List.mem_cons.mp hb with rfl | hbtail
        · refine ⟨by simp, ?_⟩
          have hz : rs.principals.count pid = 0 := List.count_eq_zero.mpr hp
          simp [List.count_append, hz]
        · exact ih tail htail b hbtail hbrole
    · simp only [grantScan, if_neg hr, Option.map_eq_some'] at h
      rcases h with ⟨tail, htail, rfl⟩
      rcases List.mem_cons.mp hb with rfl | hbtail
      · exact absurd hbrole hr
      · exact ih tail htail b hbtail hbrole

theorem grantScan_some_exists (role pid : String) :
    ∀ l l2 : List RuleSet, grantScan role pid l = some l2 →
      (∃ a ∈ l, a.role = role) → ∃ b ∈ l2, b.role = role := by
  intro l
  induction l with
  | nil =>
    intro l2 h hex
    simp at hex
  | cons rs rest ih =>
    intro l2 h hex
    by_cases hr : rs.role = role
    · by_cases hp : pid ∈ rs.principals
      · simp [grantScan, hr, hp] at h
      · simp only [grantScan, if_pos hr, if_neg hp, Option.map_eq_some'] at h
        rcases h with ⟨tail, htail, rfl⟩
        exact ⟨_, List.mem_cons_self _ _, hr⟩
    · simp only [grantScan, if_neg hr, Option.map_eq_some'] at h
      rcases h with ⟨tail, htail, rfl⟩
      rcases hex with ⟨a, ha, harole⟩
      rcases List.mem_cons.mp ha with rfl | harest
      · exact absurd harole hr
      · rcases ih tail htail ⟨a, harest, harole⟩ with ⟨b, hb, hbrole⟩
        exact ⟨b, List.mem_cons_of_mem _ hb, hbrole⟩

theorem grantScan_no_match_id (role pid : String) :
    ∀ l l2 : List RuleSet, (∀ a ∈ l, a.role ≠ role) →
      grantScan role pid l = some l2 → l2 = l := by
  intro l
  induction l with
  | nil =>
    intro l2 _ h
    simp [grantScan] at h
    exact h
  | cons rs rest ih =>
    intro l2 hnone h
    have hr : rs.role ≠ role := hnone rs (List.mem_cons_self _ _)
    simp only [grantScan, if_neg hr, Option.map_eq_some'] at h
    rcases h with ⟨tail, htail, rfl⟩
    rw [ih tail (fun a ha => hnone a (List.mem_cons_of_mem _ ha)) htail]

/-- C1: granting a principal that already appears in the rule set for the
granted role makes groupBuilder.Grant return a nil error without calling
UpdateRuleSets (result `none`); and whenever a grant does submit an
updated list, every rule set for that role in the submitted list holds
exactly one entry for that principal, and a second identical grant is a
no-op, so granting the same (resource, role, principal) twice leaves
exactly one entry for the principal. -/
theorem groupGrant_ruleSet_idempotent (role pid : String) (ruleSets : List RuleSet) :
    ((∃ rs ∈ ruleSets, rs.role = role ∧ pid ∈ rs.principals) →
        grantRuleSets role pid ruleSets = none)
    ∧ ∀ updated, grantRuleSets role pid ruleSets = some updated →
        (∀ rs ∈ updated, rs.role = role → rs.principals.count pid = 1)
        ∧ grantRuleSets role pid updated = none := by
  constructor
  · intro h
    simp [grantRuleSets, grantScan_eq_none role pid ruleSets h]
  · intro updated h
    simp only [grantRuleSets, Option.map_eq_some'] at h
    rcases h with ⟨scanned, hscan, hupd⟩
    by_cases hfound : ruleSets.any fun rs => rs.role == role
    · rw [if_pos hfound] at hupd
      subst hupd
      have hex : ∃ a ∈ ruleSets, a.role = role := by
        simpa [List.any_eq_true, beq_iff_eq] using hfound
      constructor
      · intro rs hrs hrole
        exact (grantScan_some_count role pid ruleSets scanned hscan rs hrs hrole).2
      · rcases grantScan_some_exists role pid ruleSets scanned hscan hex with ⟨b, hb, hbrole⟩
        have hbpid := (grantScan_some_count role pid ruleSets scanned hscan b hb hbrole).1
        simp [grantRuleSets, grantScan_eq_none role pid scanned ⟨b, hb, hbrole, hbpid⟩]
    · rw [if_neg hfound] at hupd
      have hnone : ∀ a ∈ ruleSets, a.role ≠ role := by
        intro a ha
        simp only [List.any_eq_true, beq_iff_eq] at hfound
        exact fun hc => hfound ⟨a, ha, hc⟩
      have hid := grantScan_no_match_id role pid ruleSets scanned hnone hscan
      rw [hid] at hupd
      subst hupd
      constructor
      · intro rs hrs hrole
        rcases List.mem_append.mp hrs with hl | hr2
        · exact absurd hrole (hnone rs hl)
        · have hrs2 : rs = { principals := [pid], role := role } := by simpa using hr2
          subst hrs2
          simp
      · have hmem : ({ principals := [pid], role := role } : RuleSet) ∈
            ruleSets ++ [{ principals := [pid], role := role }] := by simp
        simp [grantRuleSets, grantScan_eq_none role pid _ ⟨_, hmem, rfl, by simp⟩]

/-- Witness for C1 at concrete inputs: a grant of principal p into a list
already holding it is a no-op, and after granting p into a list that does
not hold it, the submitted rule set holds exactly one entry for p and the
second grant is a no-op. -/
theorem groupGrant_ruleSet_idempotent_witness :
    grantRuleSets "a" "Users/p" [RuleSet.mk ["Users/p"] "a"] = none
    ∧ ((∀ rs ∈ [RuleSet.mk ["Users/q", "Users/p"] "a"], rs.role = "a" →
          rs.principals.count "Users/p" = 1)
        ∧ grantRuleSets "a" "Users/p" [RuleSet.mk ["Users/q", "Users/p"] "a"] = none) :=
  ⟨(groupGrant_ruleSet_idempotent "a" "Users/p" [RuleSet.mk ["Users/p"] "a"]).1
      (by decide),
   (groupGrant_ruleSet_idempotent "a" "Users/p" [RuleSet.mk ["Users/q"] "a"]).2
      [RuleSet.mk ["Users/q", "Users/p"] "a"] (by decide)⟩

/-! ## groupBuilder.Revoke, rule-set branch (pkg/connector/groups.go, lines 471-522)

The Go code fetches the rule sets and runs

    if len(ruleSets) == 0 { return nil, nil }
    for i, ruleSet := range ruleSets {
      if ruleSet.Role != role { continue }
      if slices.Contains(ruleSet.Principals, principalId) {
        if len(ruleSet.Principals) == 1 {
          ruleSets = slices.Delete(ruleSets, i, i+1)
        } else {
          pI := slices.Index(ruleSet.Principals, principalId)
          ruleSets[i].Principals = slices.Delete(ruleSet.Principals, pI, pI+1)
        }
        break
      }
      return nil, nil
    }
    UpdateRuleSets(ruleSets)
-/

/-- Outcome of the revoke decision: either the function returned a nil
error without calling UpdateRuleSets, or it called UpdateRuleSets with
the given list. -/
inductive RevokeOutcome where
  | noUpdate : RevokeOutcome
  | update : List RuleSet → RevokeOutcome
  deriving DecidableEq, Repr

/-- The loop of groupBuilder.Revoke: `none` models the early
`return nil, nil` hit at the first rule set for the role when the
principal is absent from it; `some l` is the list left after the loop
finished or hit `break` (the whole entry deleted when the principal was
its only member, otherwise the first occurrence of the principal removed). -/
def revokeScan (role pid : String) : List RuleSet → Option (List RuleSet)
  | [] => some []
  | rs :: rest =>
    if rs.role = role then
      if pid ∈ rs.principals then
        if rs.principals.length = 1 then
          some rest
        else
          some ({ rs with principals := rs.principals.erase pid } :: rest)
      else
        none
    else
      (revokeScan role pid rest).map fun tail => rs :: tail

/-- The complete rule-set decision of groupBuilder.Revoke, including the
initial empty-list no-op.  Transport failures of the final UpdateRuleSets
PUT are outside the model: an `update` outcome is a call that, when it
succeeds, returns a nil error. -/
def revokeRuleSets (role pid : String) (ruleSets : List RuleSet) : RevokeOutcome :=
  if ruleSets.length = 0 then
    .noUpdate
  else
    match revokeScan role pid ruleSets with
    | none => .noUpdate
    | some l2 => .update l2

theorem revokeScan_absent (role pid : String) :
    ∀ l : List RuleSet, (∀ rs ∈ l, rs.role = role → pid ∉ rs.principals) →
      revokeScan role pid l = none ∨ revokeScan role pid l = some l := by
  intro l h
  induction l with
  | nil => right; rfl
  | cons rs rest ih =>
    by_cases hr : rs.role = role
    · left
      have hp : pid ∉ rs.principals := h rs (List.mem_cons_self _ _) hr
      simp [revokeScan, hr, hp]
    · rcases ih (fun a ha => h a (List.mem_cons_of_mem _ ha)) with hnone | hsame
      · left
        simp [revokeScan, hr, hnone]
      · right
        simp [revokeScan, hr, hsame]

/-- C2: revoking an absent grant is a no-op on the stored rule-set list.
If the fetched list is empty, or no rule set for the revoked role holds
the principal, groupBuilder.Revoke returns a nil error and either never
calls UpdateRuleSets or calls it with the exact list it fetched, so no
entry is added, removed, or modified. -/
theorem groupRevoke_absent_noop (role pid : String) (ruleSets : List RuleSet)
    (h : ruleSets = [] ∨ ∀ rs ∈ ruleSets, rs.role = role → pid ∉ rs.principals) :
    revokeRuleSets role pid ruleSets = .noUpdate
    ∨ revokeRuleSets role pid ruleSets = .update ruleSets := by
  rcases h with rfl | habs
  · left; rfl
  · by_cases hlen : ruleSets.length = 0
    · left
      simp [revokeRuleSets, hlen]
    · rcases revokeScan_absent role pid ruleSets habs with hnone | hsame
      · left
        simp [revokeRuleSets, hlen, hnone]
      · right
        simp [revokeRuleSets, hlen, hsame]

/-- Witness for C2: revoking a principal that no rule set of the fetched
list holds leaves the list untouched (here the loop falls through and
UpdateRuleSets is called with the unchanged list). -/
theorem groupRevoke_absent_noop_witness :
    revokeRuleSets "a" "Users/p" [RuleSet.mk ["Users/q"] "b"] = .noUpdate
    ∨ revokeRuleSets "a" "Users/p" [RuleSet.mk ["Users/q"] "b"] =
        .update [RuleSet.mk ["Users/q"] "b"] :=
  groupRevoke_absent_noop "a" "Users/p" [RuleSet.mk ["Users/q"] "b"]
    (Or.inr (by decide))

theorem revokeScan_last_principal (role pid : String) :
    ∀ pre post : List RuleSet, (∀ rs ∈ pre, rs.role ≠ role) →
      revokeScan role pid (pre ++ RuleSet.mk [pid] role :: post) = some (pre ++ post) := by
  intro pre post hpre
  induction pre with
  | nil => simp [revokeScan]
  | cons p pre2 ih =>
    have hp : p.role ≠ role := hpre p (List.mem_cons_self _ _)
    simp only [List.cons_append, revokeScan, if_neg hp, List.append_eq,
      ih (fun a ha => hpre a (List.mem_cons_of_mem _ ha)), Option.map_some']

/-- C3: when the (unique) rule set for the revoked role holds exactly the
revoked principal and nothing else, groupBuilder.Revoke deletes the whole
entry, and the list it submits to UpdateRuleSets has no entry for that
role at all. -/
theorem groupRevoke_last_principal_cleanup (role pid : String) (pre post : List RuleSet)
    (hpre : ∀ rs ∈ pre, rs.role ≠ role) (hpost : ∀ rs ∈ post, rs.role ≠ role) :
    revokeRuleSets role pid (pre ++ RuleSet.mk [pid] role :: post) = .update (pre ++ post)
    ∧ ∀ rs ∈ pre ++ post, rs.role ≠ role := by
  refine ⟨?_, ?_⟩
  · have hlen : (pre ++ RuleSet.mk [pid] role :: post).length ≠ 0 := by
      simp
    simp [revokeRuleSets, hlen, revokeScan_last_principal role pid pre post hpre]
  · intro rs hrs
    rcases List.mem_append.mp hrs with hl | hr
    · exact hpre rs hl
    · exact hpost rs hr

/-- Witness for C3: revoking the only principal of role a deletes the
whole rule set for a; the submitted list keeps only the other role. -/
theorem groupRevoke_last_principal_cleanup_witness :
    revokeRuleSets "a" "Users/p"
        [RuleSet.mk ["Users/q"] "b", RuleSet.mk ["Users/p"] "a"] =
      .update [RuleSet.mk ["Users/q"] "b"]
    ∧ ∀ rs ∈ [RuleSet.mk ["Users/q"] "b"], rs.role ≠ "a" := by
  have h := groupRevoke_last_principal_cleanup "a" "Users/p"
    [RuleSet.mk ["Users/q"] "b"] [] (by decide) (by decide)
  simpa using h

/-! ## Client etag state and the rule-set read/write cycle
(src/unnamed/part_001: Client struct, UpdateEtag, ListRuleSets lines
562-596, UpdateRuleSets lines 598-639) -/

/-- The etag-relevant state of the Client struct: the single held etag
string (the only mutable state the rule-set cycle touches). -/
structure Client where
  etag : String
  deriving DecidableEq, Repr

/-- Client.UpdateEtag. -/
def Client.UpdateEtag (c : Client) (etag : String) : Client :=
  { c with etag := etag }

/-- The JSON body the rule-sets GET decodes into: grant_rules and etag. -/
structure RuleSetsListResponse where
  grantRules : List RuleSet
  etag : String
  deriving DecidableEq, Repr

/-- Modelled from the spec: the name+etag Vars serialization.  NewNameVars
and the Vars implementations are code of this repository that is not among
the provided sources; spec section 4.1 says each Vars serializes itself
into query-string key/value pairs and only non-empty fields are emitted,
and section 6 gives the shape rule-sets?name=...&etag=... . -/
def nameVarsQuery (name etag : String) : List (String × String) :=
  (if name = "" then [] else [("name", name)])
    ++ (if etag = "" then [] else [("etag", etag)])

/-- Client.ListRuleSets, successful case: the GET goes out with the
name+etag query built from the currently held etag, the response is
decoded, the held etag is replaced by the response etag via UpdateEtag,
and the rule sets are returned. -/
def Client.ListRuleSets (c : Client) (resourcePayload : String)
    (resp : RuleSetsListResponse) :
    Client × List RuleSet × List (String × String) :=
  (c.UpdateEtag resp.etag, resp.grantRules, nameVarsQuery resourcePayload c.etag)

/-- The rule_set object inside the UpdateRuleSets PUT payload. -/
structure RuleSetPayload where
  name : String
  etag : String
  grantRules : List RuleSet
  deriving DecidableEq, Repr

/-- The whole UpdateRuleSets PUT payload. -/
structure UpdateRuleSetsPayload where
  name : String
  ruleSet : RuleSetPayload
  deriving DecidableEq, Repr

/-- Client.UpdateRuleSets: builds the PUT payload carrying the held etag
inside the rule_set object and sends the same held etag again in the
name+etag query parameters; the held etag is not modified. -/
def Client.UpdateRuleSets (c : Client) (resourcePayload : String)
    (ruleSets : List RuleSet) :
    Client × UpdateRuleSetsPayload × List (String × String) :=
  (c,
   { name := resourcePayload,
     ruleSet := { name := resourcePayload, etag := c.etag, grantRules := ruleSets } },
   nameVarsQuery resourcePayload c.etag)

/-- C4: after every successful ListRuleSets the held etag equals the
response etag, and every subsequent UpdateRuleSets with no intervening
read sends exactly that etag both inside the rule_set payload body and as
the etag handed to the name/etag query builder; UpdateRuleSets leaves the
held etag unchanged, so repeated writes keep sending the same value. -/
theorem ruleSets_etag_roundtrip (c : Client) (resp : RuleSetsListResponse)
    (listPayload updatePayload : String) (newRuleSets : List RuleSet) :
    ((c.ListRuleSets listPayload resp).1.etag = resp.etag)
    ∧ (((c.ListRuleSets listPayload resp).1.UpdateRuleSets updatePayload
          newRuleSets).2.1.ruleSet.etag = resp.etag)
    ∧ (((c.ListRuleSets listPayload resp).1.UpdateRuleSets updatePayload
          newRuleSets).2.2 = nameVarsQuery updatePayload resp.etag)
    ∧ (((c.ListRuleSets listPayload resp).1.UpdateRuleSets updatePayload
          newRuleSets).1 = (c.ListRuleSets listPayload resp).1) :=
  ⟨rfl, rfl, rfl, rfl⟩

/-! ## Transport wrapper error decoding
(pkg/databricks/request.go: parseJSON lines 238-246, doRequest lines
248-322, APIError lines 152-171) -/

/-- APIError from pkg/databricks/request.go (the wrapped transport error
is left out of the model: it carries no decoded data). -/
structure APIError where
  statusCode : Nat
  detail : String
  message : String
  deriving DecidableEq, Repr

/-- An upstream HTTP response as doRequest sees it: status code, the
declared content type header, and the JSON-object body restricted to its
string-valued fields. -/
structure HttpResponse where
  statusCode : Nat
  contentType : String
  body : List (String × String)
  deriving DecidableEq, Repr

/-- Go encoding/json decoding of one string field of an object: the value
at the key, or the zero value when the key is absent.  parseJSON
deliberately never inspects the declared content type (the code comment:
Databricks returns content-type text/plain even though it is json). -/
def jsonLookupString (body : List (String × String)) (key : String) : String :=
  match body.find? fun p => p.1 == key with
  | some p => p.2
  | none => ""

/-- The error path of Client.doRequest: the host HTTP wrapper reports an
error exactly on a non-2xx status (a fixed external interface), and then
doRequest decodes {detail, message} out of the body with parseJSON -
which reads only the body, never the content-type header - and returns
the structured APIError.  `none` models the nil error of a 2xx response. -/
def doRequest (resp : HttpResponse) : Option APIError :=
  if 200 ≤ resp.statusCode ∧ resp.statusCode < 300 then
    none
  else
    some { statusCode := resp.statusCode,
           detail := jsonLookupString resp.body "detail",
           message := jsonLookupString resp.body "message" }

/-- C7: for every non-2xx response whose body carries detail d and
message m, doRequest returns the APIError with that status code, Detail d
and Message m, and the result is identical for any two declared content
types (text/plain included): decoding does not depend on Content-Type. -/
theorem doRequest_error_decoding (st : Nat) (ct ct2 : String)
    (body : List (String × String)) (d m : String)
    (hst : ¬(200 ≤ st ∧ st < 300))
    (hd : jsonLookupString body "detail" = d)
    (hm : jsonLookupString body "message" = m) :
    doRequest { statusCode := st, contentType := ct, body := body } =
        some { statusCode := st, detail := d, message := m }
    ∧ doRequest { statusCode := st, contentType := ct2, body := body } =
        doRequest { statusCode := st, contentType := ct, body := body } := by
  subst hd hm
  exact ⟨by simp [doRequest, hst], rfl⟩

/-- Witness for C7: a 400 response declared text/plain with body fields
detail x and message y decodes into the structured error, identically to
an application/json declaration. -/
theorem doRequest_error_decoding_witness :
    doRequest { statusCode := 400, contentType := "text/plain",
                body := [("detail", "x"), ("message", "y")] } =
        some { statusCode := 400, detail := "x", message := "y" }
    ∧ doRequest { statusCode := 400, contentType := "application/json",
                  body := [("detail", "x"), ("message", "y")] } =
        doRequest { statusCode := 400, contentType := "text/plain",
                    body := [("detail", "x"), ("message", "y")] } :=
  doRequest_error_decoding 400 "text/plain" "application/json"
    [("detail", "x"), ("message", "y")] "x" "y" (by decide) rfl rfl

/-! ## Identity models (src/unnamed/part_001 models and
pkg/databricks/models.go) and the natural-key lookup helpers
(src/unnamed/part_001: FindUserID lines 178-203, FindGroupID lines
290-315, FindServicePrincipalID lines 408-433) -/

/-- One entry of a User emails list. -/
structure EmailEntry where
  primary : Bool
  value : String
  deriving DecidableEq, Repr

/-- User from the SCIM models. -/
structure User where
  id : String
  emails : List EmailEntry
  userName : String
  displayName : String
  active : Bool
  deriving DecidableEq, Repr

/-- Member of a group: opaque ID, display name, and the typed $ref. -/
structure Member where
  id : String
  displayName : String
  ref : String
  deriving DecidableEq, Repr

/-- Group from the SCIM models. -/
structure Group where
  id : String
  displayName : String
  members : List Member
  deriving DecidableEq, Repr

/-- ServicePrincipal from the SCIM models. -/
structure ServicePrincipal where
  id : String
  displayName : String
  active : Bool
  applicationId : String
  deriving DecidableEq, Repr

/-- Client.FindUserID as a function of the outcome of the underlying
filtered ListUsers call (resources plus totalResults): an error
propagates; an empty resource list yields the empty string together with
the nil error; otherwise the first ID is returned. -/
def FindUserID (listResult : Except String (List User × Nat)) : Except String String :=
  match listResult with
  | .error e => .error e
  | .ok (users, _) =>
    match users with
    | [] => .ok ""
    | u :: _ => .ok u.id

/-- Client.FindGroupID, same shape over ListGroups filtered by display
name. -/
def FindGroupID (listResult : Except String (List Group × Nat)) : Except String String :=
  match listResult with
  | .error e => .error e
  | .ok (groups, _) =>
    match groups with
    | [] => .ok ""
    | g :: _ => .ok g.id

/-- Client.FindServicePrincipalID, same shape over ListServicePrincipals
filtered by application ID. -/
def FindServicePrincipalID (listResult : Except String (List ServicePrincipal × Nat)) :
    Except String String :=
  match listResult with
  | .error e => .error e
  | .ok (sps, _) =>
    match sps with
    | [] => .ok ""
    | sp :: _ => .ok sp.id

/-- C8: whenever the underlying List call succeeds with zero matching
resources, each of FindUserID, FindGroupID and FindServicePrincipalID
returns the empty string together with a nil error - not a distinguished
not-found error. -/
theorem find_helpers_not_found_nil (total : Nat) :
    FindUserID (.ok ([], total)) = .ok ""
    ∧ FindGroupID (.ok ([], total)) = .ok ""
    ∧ FindServicePrincipalID (.ok ([], total)) = .ok "" :=
  ⟨rfl, rfl, rfl⟩

/-! ## groupBuilder.Grant, group-member branch
(pkg/connector/groups.go, lines 305-334)

    group := GetGroup(...)
    for _, member := range group.Members {
      if member.ID == principalId.Resource { return nil, nil }
    }
    group.Members = append(group.Members, databricks.Member{ID: principal.Id.Resource})
    UpdateGroup(group)

The membership test uses the parsed principal resource ID (checkId) while
the appended member carries the raw principal resource string (appendId);
for non-group principals the two coincide. -/

/-- The member-grant decision: `none` models the early nil return with no
UpdateGroup call; `some g` models the UpdateGroup call with the group
whose member list got the new bare-ID member appended. -/
def groupGrantMember (group : Group) (checkId appendId : String) : Option Group :=
  if group.members.any fun m => m.id == checkId then
    none
  else
    some { group with
           members := group.members ++ [{ id := appendId, displayName := "", ref := "" }] }

/-- C9: when the fetched Members list already holds an entry whose ID
equals the principal resource ID, the member grant returns a nil error
without issuing any UpdateGroup call, leaving the group - its member list
and every other field - unchanged. -/
theorem groupGrantMember_already_member (group : Group) (checkId appendId : String)
    (h : ∃ m ∈ group.members, m.id = checkId) :
    groupGrantMember group checkId appendId = none := by
  have hany : (group.members.any fun m => m.id == checkId) = true := by
    rcases h with ⟨m, hm, hid⟩
    simp only [List.any_eq_true, beq_iff_eq]
    exact ⟨m, hm, hid⟩
  simp [groupGrantMember, hany]

/-- Witness for C9: the grant of an already-present member is a no-op. -/
theorem groupGrantMember_already_member_witness :
    groupGrantMember (Group.mk "g1" "admins" [Member.mk "42" "alice" "Users/42"])
      "42" "42" = none :=
  groupGrantMember_already_member
    (Group.mk "g1" "admins" [Member.mk "42" "alice" "Users/42"]) "42" "42"
    (by decide)

/-! ## Pagination-token codec (src/unnamed/part_012: convertPageToken
lines 45-57, prepareNextToken lines 59-70) -/

/-- The base-10 value of a digit string. -/
def decimalValue (s : String) : Nat :=
  s.data.foldl (fun acc c => 10 * acc + (c.toNat - 48)) 0

/-- Modelled Go strconv.ParseUint(s, 10, 32): accepts a non-empty string
of decimal digits, no sign prefix, whose value fits 32 bits; everything
else is an error (`none`).  ParseUint is standard-library code, embedded
from its documented semantics. -/
def parseUint10_32 (s : String) : Option Nat :=
  if s.data = [] then
    none
  else if s.data.all Char.isDigit then
    if decimalValue s < 2 ^ 32 then some (decimalValue s) else none
  else
    none

/-- convertPageToken from src/unnamed/part_012: the empty token is page 1;
otherwise the token is parsed with strconv.ParseUint(token, 10, 32), a
failure being wrapped into an error. -/
def convertPageToken (token : String) : Except String Nat :=
  if token = "" then
    .ok 1
  else
    match parseUint10_32 token with
    | some page => .ok page
    | none => .error "failed to parse page token"

/-- C10: convertPageToken is total and behaves by cases - the empty
string gives page 1 with a nil error; a non-empty all-digit string whose
value fits in 32 bits gives that value with a nil error; every other
string (non-numeric, signed, or exceeding 32 bits) gives an error. -/
theorem convertPageToken_total_spec (s : String) :
    (s = "" → convertPageToken s = .ok 1)
    ∧ (s ≠ "" → s.data.all Char.isDigit = true → decimalValue s < 2 ^ 32 →
        convertPageToken s = .ok (decimalValue s))
    ∧ (s ≠ "" → ¬(s.data.all Char.isDigit = true ∧ decimalValue s < 2 ^ 32) →
        convertPageToken s = .error "failed to parse page token") := by
  refine ⟨fun h => by simp [convertPageToken, h], ?_, ?_⟩
  · intro hne hdig hlt
    have hdata : ¬s.data = [] := fun hc => hne (by
      cases s with
      | mk data => simp_all)
    have hlt2 : decimalValue s < 4294967296 := hlt
    simp [convertPageToken, hne, parseUint10_32, hdata, hdig, hlt2]
  · intro hne hbad
    have hdata : ¬s.data = [] := fun hc => hne (by
      cases s with
      | mk data => simp_all)
    by_cases hdig : s.data.all Char.isDigit = true
    · have hge : ¬decimalValue s < 2 ^ 32 := fun hlt => hbad ⟨hdig, hlt⟩
      have hge2 : ¬decimalValue s < 4294967296 := hge
      simp [convertPageToken, hne, parseUint10_32, hdata, hdig, hge2]
    · simp [convertPageToken, hne, parseUint10_32, hdata, hdig]

/-- Witness for C10 at concrete tokens: empty gives 1, the digits 42 give
page 42, and a non-numeric token errors. -/
theorem convertPageToken_total_spec_witness :
    convertPageToken "" = .ok 1
    ∧ convertPageToken "42" = .ok (decimalValue "42")
    ∧ convertPageToken "4x2" = .error "failed to parse page token" :=
  ⟨(convertPageToken_total_spec "").1 rfl,
   (convertPageToken_total_spec "42").2.1 (by decide) (by decide) (by decide),
   (convertPageToken_total_spec "4x2").2.2 (by decide) (by decide)⟩

/-! ## prepareNextToken (src/unnamed/part_012, lines 59-70)

    func prepareNextToken(page uint, pageTotal int, total uint) string {
      var token string
      next := page + uint(pageTotal)
      if next < total+1 { token = strconv.Itoa(int(next)) }
      return token
    }

Go uint and int are 64 bits wide on the platforms this connector targets,
so the conversions and additions reduce modulo 2^64 and Itoa prints the
two-complement int64 reading of the unsigned value. -/

/-- Go conversion int64 to uint64: reduction modulo 2^64. -/
def goUintOfInt (i : Int) : Nat :=
  (i % (2 ^ 64 : Int)).toNat

/-- Go conversion uint64 to int64: values at or above 2^63 wrap to
negatives. -/
def goIntOfUint (n : Nat) : Int :=
  if n < 2 ^ 63 then (n : Nat) else (n : Int) - 2 ^ 64

/-- prepareNextToken from src/unnamed/part_012: the uint arguments are
the residues of the given naturals modulo 2^64. -/
def prepareNextToken (page : Nat) (pageTotal : Int) (total : Nat) : String :=
  let next := (page % 2 ^ 64 + goUintOfInt pageTotal) % 2 ^ 64
  if next < (total % 2 ^ 64 + 1) % 2 ^ 64 then toString (goIntOfUint next) else ""

theorem toDigitsCore_ne_nil (b : Nat) :
    ∀ fuel n : Nat, ∀ ds : List Char, (0 < fuel ∨ ds ≠ []) →
      Nat.toDigitsCore b fuel n ds ≠ [] := by
  intro fuel
  induction fuel with
  | zero =>
    intro n ds h
    rcases h with h | h
    · exact absurd h (by simp)
    · simpa [Nat.toDigitsCore] using h
  | succ f ih =>
    intro n ds _
    simp only [Nat.toDigitsCore]
    by_cases hz : n / b = 0
    · simp [hz]
    · simp only [hz, if_neg hz]
      exact ih (n / b) _ (Or.inr (by simp))

theorem natToString_ne_empty (n : Nat) : toString n ≠ "" := by
  intro h
  have h2 : Nat.toDigits 10 n = [] := by
    have h3 := congrArg String.data h
    simpa [toString, Nat.repr, List.asString] using h3
  exact toDigitsCore_ne_nil 10 (n + 1) n [] (Or.inl (Nat.succ_pos n)) (by
    simpa [Nat.toDigits] using h2)

theorem prepareNextToken_reduce (page : Nat) (pageTotal : Int) (total : Nat)
    (hpt : 0 ≤ pageTotal) (hnext : page + pageTotal.toNat ≤ 2 ^ 63)
    (htotal : total < 2 ^ 63) :
    prepareNextToken page pageTotal total =
      if page + pageTotal.toNat < total + 1 then
        toString (goIntOfUint (page + pageTotal.toNat))
      else "" := by
  have hcast := Int.toNat_of_nonneg hpt
  have e1 : goUintOfInt pageTotal = pageTotal.toNat := by
    unfold goUintOfInt
    rw [Int.emod_eq_of_lt hpt (by omega)]
  have e2 : page % 2 ^ 64 = page := Nat.mod_eq_of_lt (by omega)
  have e3 : (page + pageTotal.toNat) % 2 ^ 64 = page + pageTotal.toNat :=
    Nat.mod_eq_of_lt (by omega)
  have e4 : (total % 2 ^ 64 + 1) % 2 ^ 64 = total + 1 := by
    rw [Nat.mod_eq_of_lt (a := total) (by omega)]
    exact Nat.mod_eq_of_lt (by omega)
  unfold prepareNextToken
  rw [e1, e2, e3, e4]

theorem prepareNextToken_empty_iff (page : Nat) (pageTotal : Int) (total : Nat)
    (hpt : 0 ≤ pageTotal) (hnext : page + pageTotal.toNat ≤ 2 ^ 63)
    (htotal : total < 2 ^ 63) :
    (prepareNextToken page pageTotal total = "") ↔ total < page + pageTotal.toNat := by
  rw [prepareNextToken_reduce page pageTotal total hpt hnext htotal]
  by_cases hc : page + pageTotal.toNat < total + 1
  · rw [if_pos hc]
    have hsmall : page + pageTotal.toNat < 2 ^ 63 := by omega
    rw [goIntOfUint, if_pos hsmall]
    constructor
    · intro hfalse
      exact absurd hfalse (natToString_ne_empty (page + pageTotal.toNat))
    · omega
  · rw [if_neg hc]
    constructor
    · intro _
      omega
    · intro _
      rfl

theorem prepareNextToken_value (page : Nat) (pageTotal : Int) (total : Nat)
    (hpt : 0 ≤ pageTotal) (hle : page + pageTotal.toNat ≤ total)
    (htotal : total < 2 ^ 63) :
    prepareNextToken page pageTotal total = toString (page + pageTotal.toNat) := by
  rw [prepareNextToken_reduce page pageTotal total hpt (by omega) htotal,
    if_pos (by omega), goIntOfUint, if_pos (by omega)]
  rfl

/-- Counterexample to C5 as stated: at page 1, one item returned and
totalCount 2^64 - 1 (a value of the uint domain the claim quantifies
over), page + items = 2 does not exceed the total count, so the claim
demands the next page string 2, yet the code computes total+1 = 0 after
64-bit wraparound and returns the empty string. -/
theorem prepareNextToken_unbounded_false :
    prepareNextToken 1 1 (2 ^ 64 - 1) = ""
    ∧ ¬((2 : Nat) ^ 64 - 1 < 1 + (1 : Int).toNat) := by
  constructor
  · decide
  · decide

/-- C5 (amended): for every page >= 1, itemsReturnedThisPage >= 0 and
totalCount >= 0 such that page + itemsReturnedThisPage is at most 2^63
and totalCount is below 2^63 - the range in which the 64-bit unsigned
arithmetic of the function cannot wrap - prepareNextToken returns the
empty string exactly when page + itemsReturnedThisPage > totalCount, and
otherwise returns the next page index page + itemsReturnedThisPage as a
decimal string. -/
theorem prepareNextToken_bounded_spec (page : Nat) (pageTotal : Int) (total : Nat)
    (hpage : 1 ≤ page) (hpt : 0 ≤ pageTotal)
    (hnext : page + pageTotal.toNat ≤ 2 ^ 63) (htotal : total < 2 ^ 63) :
    (prepareNextToken page pageTotal total = "" ↔ total < page + pageTotal.toNat)
    ∧ (page + pageTotal.toNat ≤ total →
        prepareNextToken page pageTotal total = toString (page + pageTotal.toNat)) :=
  ⟨prepareNextToken_empty_iff page pageTotal total hpt hnext htotal,
   fun hle => prepareNextToken_value page pageTotal total hpt hle htotal⟩

/-- Witness for C5 at page 2, three items returned, total 10: the token
is not empty and equals the decimal 5. -/
theorem prepareNextToken_bounded_spec_witness :
    (prepareNextToken 2 3 10 = "" ↔ 10 < 2 + (3 : Int).toNat)
    ∧ (2 + (3 : Int).toNat ≤ 10 →
        prepareNextToken 2 3 10 = toString (2 + (3 : Int).toNat)) :=
  prepareNextToken_bounded_spec 2 3 10 (by decide) (by decide) (by decide) (by decide)

/-! ## The pagination walk of the resource adapters

Every List adapter fetches one page, then hands
prepareNextToken(page, len(items), total) to the host as the next token;
the host feeds it back (through convertPageToken) until it is empty.
Each fetched page returns min(pageSize, itemsRemaining) items, and the
next start index is exactly page + returned (the value printed into the
token).  The walk below iterates that loop; its result is the pair
(number of page fetches, number of items received overall). -/

/-- The page walk: fuel-indexed iteration of the adapter loop.  `none`
means the fuel ran out before the walk terminated on its own. -/
def pageWalk (pageSize total : Nat) : Nat → Nat → Nat → Option (Nat × Nat)
  | 0, _, _ => none
  | fuel + 1, page, visited =>
    let returned := min pageSize (total - visited)
    if prepareNextToken page (returned : Int) total = "" then
      some (1, visited + returned)
    else
      (pageWalk pageSize total fuel (page + returned) (visited + returned)).map
        fun sv => (sv.1 + 1, sv.2)

theorem pageWalk_go (pageSize total : Nat) (hps : 0 < pageSize)
    (htotal : total < 2 ^ 63) :
    ∀ fuel visited, visited ≤ total → total - visited < fuel →
      pageWalk pageSize total fuel (visited + 1) visited =
        some (max 1 ((total - visited + pageSize - 1) / pageSize), total) := by
  intro fuel
  induction fuel with
  | zero =>
    intro visited hv hfuel
    omega
  | succ f ih =>
    intro visited hv hfuel
    have hminn : ((min pageSize (total - visited) : Nat) : Int).toNat
        = min pageSize (total - visited) := Int.toNat_natCast _
    have hpt : (0 : Int) ≤ (min pageSize (total - visited) : Nat) :=
      Int.natCast_nonneg _
    have hbound : (visited + 1) + ((min pageSize (total - visited) : Nat) : Int).toNat
        ≤ 2 ^ 63 := by
      rw [hminn]
      omega
    by_cases hcase : total - visited ≤ pageSize
    · have hempty : prepareNextToken (visited + 1)
          ((min pageSize (total - visited) : Nat) : Int) total = "" := by
        rw [prepareNextToken_empty_iff (visited + 1) _ total hpt hbound htotal, hminn]
        omega
      have hdiv : (total - visited + pageSize - 1) / pageSize < 2 := by
        rw [Nat.div_lt_iff_lt_mul hps]
        omega
      simp only [pageWalk, hempty, if_pos]
      refine congrArg some (Prod.ext ?_ ?_) <;> simp <;> omega
    · have hmin2 : min pageSize (total - visited) = pageSize := by omega
      have hne : prepareNextToken (visited + 1) ((pageSize : Nat) : Int) total ≠ "" := by
        rw [prepareNextToken_value (visited + 1) _ total (Int.natCast_nonneg _)
          (by rw [Int.toNat_natCast]; omega) htotal]
        exact natToString_ne_empty _
      have hrec := ih (visited + pageSize) (by omega) (by omega)
      simp only [pageWalk, hmin2, if_neg hne]
      rw [show visited + 1 + pageSize = (visited + pageSize) + 1 by omega, hrec]
      have e1 : total - (visited + pageSize) + pageSize - 1 = total - visited - 1 := by
        omega
      have e2 : total - visited + pageSize - 1 = total - visited - 1 + pageSize := by
        omega
      have e3 : max 1 ((total - visited - 1) / pageSize) + 1
          = max 1 ((total - visited - 1 + pageSize) / pageSize) := by
        have hx : 1 ≤ (total - visited - 1) / pageSize :=
          (Nat.one_le_div_iff hps).mpr (by omega)
        rw [Nat.add_div_right _ hps]
        omega
      simp only [Option.map_some']
      refine congrArg some (Prod.ext ?_ rfl)
      simp only [e1, e2]
      exact e3

/-- Counterexample to C6 as stated: for totalCount 0 and pageSize 1 the
claim says the walk terminates after ceil(0/1) = 0 steps, but the walk
necessarily performs its first fetch-and-call step (receiving zero items
and an empty token) and therefore terminates after one step. -/
theorem pageWalk_zero_total_false :
    pageWalk 1 0 1 1 0 = some (1, 0) ∧ (0 + 1 - 1) / 1 = 0 := by
  constructor
  · decide
  · decide

/-- C6 (amended): for every totalCount below 2^63 (so the 64-bit unsigned
arithmetic of prepareNextToken cannot wrap) and pageSize > 0, the walk
starting at page 1 that on each step receives min(pageSize, itemsRemaining)
items and calls prepareNextToken until it returns the empty string
terminates, receives each of the totalCount items exactly once (the
visited count ends at totalCount, each step consuming that many fresh
items off the remainder), and performs max(1, ceil(totalCount/pageSize))
fetch steps - the single initial fetch happens even when the collection
is empty. -/
theorem pageWalk_bounded_spec (pageSize total : Nat) (hps : 0 < pageSize)
    (htotal : total < 2 ^ 63) :
    pageWalk pageSize total (total + 1) 1 0 =
      some (max 1 ((total + pageSize - 1) / pageSize), total) := by
  have h := pageWalk_go pageSize total hps htotal (total + 1) 0 (Nat.zero_le _)
    (by omega)
  simpa using h

/-- Witness for C6: five items with page size 2 are walked in exactly
three fetches of 2, 2 and 1 items. -/
theorem pageWalk_bounded_spec_witness :
    pageWalk 2 5 6 1 0 = some (max 1 ((5 + 2 - 1) / 2), 5) :=
  pageWalk_bounded_spec 2 5 (by decide) (by decide)

end BatonDatabricks
